import Mathlib

/-!
Verification of the incremental call-graph maintenance engine of codex.graph.

The development shallowly embeds the relevant TypeScript components:
the Change Scheduler (scheduleFileAnalysis and its debounce-timer body),
the local updater (performLocalUpdate), the Cross-File Resolver
(updateCrossFileState and resolveImportToRepoFile) and the persistence
cache (CacheManager.createWorkspaceCacheKey, getMultiple, setMultiple).

JavaScript strings are modelled as Lean strings, with the string
operations used by the source (split, includes, startsWith, endsWith,
localeCompare, replace of a trailing extension) implemented over the
underlying character lists so that every definition evaluates inside
the kernel.  Module-level mutable state (the cached call graphs, the
RepoFileIndex and the CrossFileCall set) is passed explicitly as a
state record.  Collaborator functions whose code lives outside the
embedded files (tree-sitter extraction, applyLocalUpdate, the workflow
detector, the merged-graph cache) are fields of an environment record,
so theorems quantify over their behaviour.
-/

/-- Split a character list at every occurrence of the separator, keeping
empty chunks, matching the JavaScript single-character split. -/
def chunks (sep : Char) : List Char → List (List Char)
  | [] => [[]]
  | c :: cs =>
    let r := chunks sep cs
    if c = sep then [] :: r
    else
      match r with
      | [] => [[c]]
      | h :: t => (c :: h) :: t

/-- Join character-list chunks with a separator character. -/
def intercalateCL (sep : Char) : List (List Char) → List Char
  | [] => []
  | [s] => s
  | s :: rest => s ++ sep :: intercalateCL sep rest

/-- Boolean prefix test on character lists. -/
def hasPrefixCL : List Char → List Char → Bool
  | [], _ => true
  | _ :: _, [] => false
  | a :: as, b :: bs => a = b && hasPrefixCL as bs

/-- Boolean substring test on character lists, the model of
JavaScript String.includes. -/
def containsCL (needle : List Char) : List Char → Bool
  | [] => hasPrefixCL needle []
  | l@(_ :: cs) => hasPrefixCL needle l || containsCL needle cs

/-- Boolean suffix test on character lists. -/
def endsWithCL (needle hay : List Char) : Bool :=
  hasPrefixCL needle.reverse hay.reverse

/-- Lexicographic order on character lists, the model of the
localeCompare comparator used to sort cache-key entries. -/
def lexLe : List Char → List Char → Bool
  | [], _ => true
  | _ :: _, [] => false
  | a :: as, b :: bs => if a < b then true else if a = b then lexLe as bs else false

/-- Substring test on strings, the model of String.includes. -/
def strContains (s pat : String) : Bool := containsCL pat.data s.data

/-- A function record of a per-file call graph: name, line span and the
ordered list of call-expression strings. -/
structure FunctionInfo where
  name : String
  startLine : Nat
  endLine : Nat
  calls : List String
deriving DecidableEq, Repr

/-- A per-file call graph: an association of function names to their
records, representing the functions map of the extractor output. -/
structure CallGraph where
  functions : List (String × FunctionInfo)
deriving DecidableEq, Repr

/-- The key set of a call graph. -/
def CallGraph.keys (g : CallGraph) : List String := g.functions.map (·.1)

/-- Lookup of a function record by name, first binding wins. -/
def CallGraph.lookup (g : CallGraph) (n : String) : Option FunctionInfo :=
  (g.functions.find? (fun e => e.1 == n)).map (·.2)

/-- The number of distinct function names, the model of functions.size. -/
def CallGraph.size (g : CallGraph) : Nat := g.keys.dedup.length

/-- The flattened caller-callee pair set of a call graph snapshot. -/
def CallGraph.edgePairs (g : CallGraph) : List (String × String) :=
  g.keys.dedup.flatMap (fun n =>
    match g.lookup n with
    | some fi => fi.calls.map (fun c => (n, c))
    | none => [])

/-- True when a function present in both snapshots changed its call list
or line span. -/
def infoChanged (a b : FunctionInfo) : Bool :=
  a.calls != b.calls || a.startLine != b.startLine || a.endLine != b.endLine

/-- The structural delta between two call-graph snapshots. -/
structure CallGraphDiff where
  addedFunctions : List String
  removedFunctions : List String
  modifiedFunctions : List String
  addedEdges : List (String × String)
  removedEdges : List (String × String)
deriving DecidableEq, Repr

/-- Modelled from the spec: diffCallGraphs of call-graph-extractor.ts is
not among the embedded sources; section 4.2 of the design specifies a
set difference of function-name keys for added and removed, an
order-sensitive call-list and line-span comparison for modified, and an
edge delta over the flattened caller-callee pair sets. -/
def diffCallGraphs (old new : CallGraph) : CallGraphDiff :=
  { addedFunctions := new.keys.dedup.filter (fun n => !old.keys.contains n)
    removedFunctions := old.keys.dedup.filter (fun n => !new.keys.contains n)
    modifiedFunctions := new.keys.dedup.filter (fun n =>
      old.keys.contains n &&
      match old.lookup n, new.lookup n with
      | some a, some b => infoChanged a b
      | _, _ => false)
    addedEdges := new.edgePairs.filter (fun e => !old.edgePairs.contains e)
    removedEdges := old.edgePairs.filter (fun e => !new.edgePairs.contains e) }

/-- A function entry of the repo structure: name, call list and line. -/
structure FileFunction where
  name : String
  calls : List String
  line : Nat
deriving DecidableEq, Repr

/-- An import statement: its source string and imported symbols. -/
structure FileImport where
  source : String
  symbols : List String
deriving DecidableEq, Repr

/-- The structure extracted from one file: functions and imports. -/
structure FileStructure where
  functions : List FileFunction
  imports : List FileImport
deriving DecidableEq, Repr

/-- A RepoFileIndex entry: a relative path and its function entries. -/
structure RepoFile where
  path : String
  functions : List FileFunction
deriving DecidableEq, Repr

/-- The caller side of a cross-file call. -/
structure CallerRef where
  file : String
  function : String
  line : Nat
deriving DecidableEq, Repr

/-- The callee side of a cross-file call. -/
structure CalleeRef where
  file : String
  function : String
  module : String
deriving DecidableEq, Repr

/-- A resolved cross-file call edge. -/
structure CrossFileCall where
  caller : CallerRef
  callee : CalleeRef
deriving DecidableEq, Repr

/-- Pointwise map update, last write wins, the model of Map.set. -/
def mapSet {β : Type} (m : String → Option β) (k : String) (v : β) : String → Option β :=
  fun x => if x = k then some v else m x

/-- The module name derived from an import source: the last path
segment with a trailing dot-extension removed, falling back to the
whole source when that yields the empty string. -/
def moduleNameOf (source : String) : String :=
  let last := (chunks '/' source.data).getLastD []
  let parts := chunks '.' last
  let stripped :=
    if 2 ≤ parts.length && !(parts.getLastD []).isEmpty then
      intercalateCL '.' parts.dropLast
    else last
  if stripped.isEmpty then source else ⟨stripped⟩

/-- Resolve an import source to a file path from the known repo files,
walking relative segments against the current directory and trying
extension candidates, then falling back to bare-module matching. -/
def resolveImportToRepoFile (importSource currentFile : String) (allPaths : List String) :
    Option String :=
  let currentDir := intercalateCL '/' ((chunks '/' currentFile.data).dropLast)
  let relResult : Option String :=
    if hasPrefixCL "./".data importSource.data || hasPrefixCL "../".data importSource.data then
      let parts := chunks '/' currentDir ++ chunks '/' importSource.data
      let resolved := parts.foldl (fun acc part =>
        if part = [] ∨ part = ['.'] then acc
        else if part = ['.', '.'] then acc.dropLast
        else acc ++ [part]) []
      let basePath : String := ⟨intercalateCL '/' (resolved.map id)⟩
      [".ts", ".tsx", ".js", ".jsx", ".py", ""].findSome? (fun ext =>
        let fullPath := basePath ++ ext
        if allPaths.contains fullPath then some fullPath else none)
    else none
  match relResult with
  | some p => some p
  | none =>
    if !containsCL ['/'] importSource.data && !hasPrefixCL ['@'] importSource.data then
      let modulePath : String := ⟨importSource.data.map (fun c => if c = '.' then '/' else c)⟩
      [".py", ".ts", ".js", ""].findSome? (fun ext =>
        let fullPath := modulePath ++ ext
        allPaths.find? (fun f => f == fullPath || endsWithCL ('/' :: fullPath.data) f.data))
    else none

/-- The import-symbol and module-name map of one file, built in import
order with later writes overriding earlier ones. -/
def importMapOf (imports : List FileImport) (relativePath : String) (allPaths : List String) :
    String → Option String :=
  imports.foldl (fun m imp =>
    match resolveImportToRepoFile imp.source relativePath allPaths with
    | none => m
    | some resolvedPath =>
      let m1 := imp.symbols.foldl (fun acc s => mapSet acc s resolvedPath) m
      mapSet m1 (moduleNameOf imp.source) resolvedPath)
    (fun _ => none)

/-- The exported-functions map over the repo files, path to the list of
function names of that file. -/
def exportedFunctionsOf (files : List RepoFile) : String → Option (List String) :=
  files.foldl (fun m f => mapSet m f.path (f.functions.map (·.name))) (fun _ => none)

/-- Split a call string at its first dot into a module name and the
function name cut before an opening parenthesis; none when the call has
no dot. -/
def parseCall (call : String) : Option (String × String) :=
  match chunks '.' call.data with
  | [] => none
  | [_] => none
  | m :: rest =>
    some (⟨m⟩, ⟨(chunks '(' (intercalateCL '.' rest)).headD []⟩)

/-- Resolve one call expression of one function against the import map
and the exported-functions map, producing a cross-file call when the
target file is distinct and exports the function or exports no
explicit function list. -/
def resolveCall (importMap : String → Option String) (exported : String → Option (List String))
    (relativePath : String) (fn : FileFunction) (call : String) : Option CrossFileCall :=
  match parseCall call with
  | none => none
  | some (moduleName, funcName) =>
    match importMap moduleName with
    | none => none
    | some targetFile =>
      if targetFile ≠ relativePath then
        match exported targetFile with
        | none => none
        | some targetFuncs =>
          if targetFuncs.contains funcName || targetFuncs.isEmpty then
            some { caller := { file := relativePath, function := fn.name, line := fn.line }
                   callee := { file := targetFile, function := funcName, module := moduleName } }
          else none
      else none

/-- All cross-file calls re-derived from the edited file. -/
def newCallsOf (fs : FileStructure) (importMap : String → Option String)
    (exported : String → Option (List String)) (relativePath : String) : List CrossFileCall :=
  fs.functions.flatMap (fun fn => fn.calls.filterMap (resolveCall importMap exported relativePath fn))

/-- The process-wide analysis state: the per-file call-graph cache, the
RepoFileIndex and the CrossFileCall set. -/
structure AnalysisState where
  cachedCallGraphs : List (String × CallGraph)
  repoFiles : List RepoFile
  crossFileCalls : List CrossFileCall
deriving Repr

/-- The RepoFileIndex after splicing in the edited file: stale entries
for the path are filtered out and the fresh entry appended. -/
def updatedRepoFilesOf (repoFiles : List RepoFile) (fs : FileStructure) (relativePath : String) :
    List RepoFile :=
  repoFiles.filter (fun f => f.path ≠ relativePath) ++
    [{ path := relativePath
       functions := fs.functions.map (fun f => { name := f.name, calls := f.calls, line := f.line }) }]

/-- Update cross-file call state after a local file change: refresh the
RepoFileIndex entry of the file, drop stale calls where the file was
the caller, and re-derive its calls through the import map. -/
def updateCrossFileState (extract : String → String → FileStructure)
    (content relativePath : String) (st : AnalysisState) : AnalysisState :=
  if st.repoFiles.isEmpty then st
  else
    let fileStructure := extract content relativePath
    let updatedRepoFiles := updatedRepoFilesOf st.repoFiles fileStructure relativePath
    let otherCalls := st.crossFileCalls.filter (fun c => c.caller.file ≠ relativePath)
    let exported := exportedFunctionsOf updatedRepoFiles
    let allFilePaths := updatedRepoFiles.map (·.path)
    let importMap := importMapOf fileStructure.imports relativePath allFilePaths
    let newCalls := newCallsOf fileStructure importMap exported relativePath
    { st with repoFiles := updatedRepoFiles, crossFileCalls := otherCalls ++ newCalls }

/-- Modelled from the spec: a node of the VisualGraph; only its stable
id is relevant to the embedded components, the semantic fields are
owned by the external classifier. -/
structure GraphNode where
  id : String
deriving DecidableEq, Repr

/-- Modelled from the spec: an edge of the VisualGraph. -/
structure GraphEdge where
  source : String
  target : String
deriving DecidableEq, Repr

/-- Modelled from the spec: the VisualGraph, a long-lived node and edge
sequence. -/
structure WorkflowGraph where
  nodes : List GraphNode
  edges : List GraphEdge
deriving DecidableEq, Repr

/-- The patch statistics returned by a local update.  The graph field
is optional because the source stores the raw result of a nullable
merged-graph read into it. -/
structure LocalUpdateResult where
  graph : Option WorkflowGraph
  nodesAdded : List String
  nodesRemoved : List String
  nodesUpdated : List String
  edgesAdded : Nat
  edgesRemoved : Nat
  needsMetadata : List String
  changedFunctions : List String
deriving DecidableEq, Repr

/-- The merged-graph cache as observed by the local updater: the merged
graph of the whole analyzed set and the merged graph of one file. -/
structure CacheState where
  getMergedAll : Option WorkflowGraph
  getMergedFile : String → Option WorkflowGraph

/-- The collaborators of performLocalUpdate that live outside the
embedded sources: the file read (none models a thrown exception, which
the source catches and converts to a null result), the tree-sitter
extractor, applyLocalUpdate, the workflow detector, the initial graph
builder, the repo-structure extractor and the cache write. -/
structure LocalUpdateEnv where
  readFile : Option String
  extractCallGraph : String → String → CallGraph
  applyLocalUpdate : WorkflowGraph → CallGraphDiff → CallGraph → String → LocalUpdateResult
  detectWorkflow : String → String → Bool
  createGraphFromCallGraph : CallGraph → String → WorkflowGraph
  extractFileStructure : String → String → FileStructure
  setAnalysisResult : CacheState → Option WorkflowGraph → String → String → CacheState

/-- Read the cached call graph of a file. -/
def getCachedCallGraph (st : AnalysisState) (filePath : String) : Option CallGraph :=
  (st.cachedCallGraphs.find? (fun e => e.1 == filePath)).map (·.2)

/-- Replace the cached call graph of a file. -/
def setCachedCallGraph (st : AnalysisState) (filePath : String) (g : CallGraph) : AnalysisState :=
  { st with cachedCallGraphs := (filePath, g) :: st.cachedCallGraphs.filter (fun e => e.1 ≠ filePath) }

/-- The explicit zero-change patch: empty id lists, zero edge counts,
nothing pending, distinguished from the null sentinel. -/
def zeroPatch (g : Option WorkflowGraph) : LocalUpdateResult :=
  { graph := g, nodesAdded := [], nodesRemoved := [], nodesUpdated := []
    edgesAdded := 0, edgesRemoved := 0, needsMetadata := [], changedFunctions := [] }

/-- The no-prior-cache tail of performLocalUpdate: detect whether the
file is a relevant LLM file with at least one function and, if so,
build and cache an instant pending graph; otherwise return the null
sentinel. -/
def tryCreateNewLLMGraph (env : LocalUpdateEnv) (c : CacheState) (st1 : AnalysisState)
    (content filePath relativePath : String) (newCallGraph : CallGraph) :
    Option LocalUpdateResult × CacheState × AnalysisState :=
  let isLLMFile := env.detectWorkflow content filePath
  if isLLMFile && decide (0 < newCallGraph.size) then
    let newGraph := env.createGraphFromCallGraph newCallGraph relativePath
    let pendingNodeIds := newGraph.nodes.map (·.id)
    let c1 := env.setAnalysisResult c (some newGraph) relativePath content
    let st2 := updateCrossFileState env.extractFileStructure content relativePath st1
    (some { graph := c1.getMergedAll
            nodesAdded := pendingNodeIds
            nodesRemoved := []
            nodesUpdated := []
            edgesAdded := newGraph.edges.length
            edgesRemoved := 0
            needsMetadata := pendingNodeIds
            changedFunctions := newCallGraph.keys.dedup }, c1, st2)
  else (none, c, st1)

/-- Perform an instant local structure update: extract the new call
graph, diff it against the cached one and either return the zero-change
patch, apply the diff and refresh the caches and cross-file state, fall
back to the existing cached graph, create an instant graph for a new
LLM file, or return the null sentinel. -/
def performLocalUpdate (env : LocalUpdateEnv) (c : CacheState) (st : AnalysisState)
    (filePath relativePath : String) :
    Option LocalUpdateResult × CacheState × AnalysisState :=
  match env.readFile with
  | none => (none, c, st)
  | some content =>
    let newCallGraph := env.extractCallGraph content filePath
    match getCachedCallGraph st filePath, c.getMergedFile filePath with
    | some oldCallGraph, some fileGraph =>
      let diff := diffCallGraphs oldCallGraph newCallGraph
      let hasChanges := !diff.addedFunctions.isEmpty || !diff.removedFunctions.isEmpty ||
        !diff.modifiedFunctions.isEmpty || !diff.addedEdges.isEmpty || !diff.removedEdges.isEmpty
      if hasChanges then
        let result0 := env.applyLocalUpdate fileGraph diff newCallGraph relativePath
        let result1 := { result0 with
          changedFunctions := diff.addedFunctions ++ diff.removedFunctions ++ diff.modifiedFunctions }
        let st1 := setCachedCallGraph st filePath newCallGraph
        let c1 := env.setAnalysisResult c result1.graph relativePath content
        let st2 := updateCrossFileState env.extractFileStructure content relativePath st1
        (some { result1 with graph := c1.getMergedAll }, c1, st2)
      else
        (some (zeroPatch c.getMergedAll), c, st)
    | _, _ =>
      let st1 := setCachedCallGraph st filePath newCallGraph
      match c.getMergedFile filePath with
      | some existingGraph =>
        if decide (0 < existingGraph.nodes.length) then
          (some (zeroPatch c.getMergedAll), c, st1)
        else
          tryCreateNewLLMGraph env c st1 content filePath relativePath newCallGraph
      | none =>
        tryCreateNewLLMGraph env c st1 content filePath relativePath newCallGraph

/-- The file has a prior cached analysis: either an in-memory cached
call graph together with a cached file graph, or a cached file graph
with at least one node. -/
def hasPriorAnalysis (c : CacheState) (st : AnalysisState) (filePath : String) : Prop :=
  ((getCachedCallGraph st filePath).isSome ∧ (c.getMergedFile filePath).isSome) ∨
    (∃ g, c.getMergedFile filePath = some g ∧ 0 < g.nodes.length)

/-- The file is recognized as a relevant LLM file whose call graph has
at least one function. -/
def recognizedLLMFile (env : LocalUpdateEnv) (content filePath : String) : Prop :=
  env.detectWorkflow content filePath = true ∧ 0 < (env.extractCallGraph content filePath).size

/-- The structural-change test the Change Scheduler applies to a patch:
any added or removed node, or any added or removed edge. -/
def structuralChangeB (r : LocalUpdateResult) : Bool :=
  !r.nodesAdded.isEmpty || !r.nodesRemoved.isEmpty ||
    decide (0 < r.edgesAdded) || decide (0 < r.edgesRemoved)

/-- Debounce and inactivity timing configuration. -/
structure FileWatchingConfig where
  debounceMs : Nat
  activeToChangedMs : Nat
deriving DecidableEq, Repr

/-- The observable messages the scheduler sends: a graph re-render
request carrying an optional file-change indicator, a metadata batch
enqueue, a file-state notification, a loading overlay, and the full
re-analysis fallback. -/
inductive Effect where
  | updateGraph (fileChange : Option (String × List String)) (needsMetadata : List String)
  | queueMetadata (relativePath : String)
  | notifyFileState (filePath : String) (state : String) (functions : List String)
  | showLoading (msg : String)
  | fallbackAnalyze
deriving DecidableEq, Repr

/-- An armed active-to-changed transition timer: its delay and the
changed function list it will broadcast. -/
structure ActiveEdit where
  delayMs : Nat
  functions : List String
deriving DecidableEq, Repr

/-- The per-file live-indicator state: the armed editing timer and the
recently-changed function list. -/
structure FileIndicatorState where
  activelyEditing : Option ActiveEdit
  changedFunctions : Option (List String)
deriving DecidableEq, Repr

/-- The body of the debounce timer of scheduleFileAnalysis, as a pure
function of the local-update result, the prior-analysis flag and the
metadata-context availability, returning the new indicator state and
the emitted effects. -/
def onDebounceFire (config : FileWatchingConfig) (localResult : Option LocalUpdateResult)
    (isCached hasMetadataContext : Bool) (relativePath : String) (ind : FileIndicatorState) :
    FileIndicatorState × List Effect :=
  match localResult with
  | some r =>
    if structuralChangeB r then
      let fileChange := if !r.changedFunctions.isEmpty then
        some (relativePath, r.changedFunctions) else none
      let effs := [Effect.updateGraph fileChange r.needsMetadata] ++
        (if !r.needsMetadata.isEmpty && hasMetadataContext then
          [Effect.queueMetadata relativePath] else [])
      if !r.changedFunctions.isEmpty then
        ({ ind with activelyEditing := some ⟨config.activeToChangedMs, r.changedFunctions⟩ }, effs)
      else (ind, effs)
    else
      ({ activelyEditing := none, changedFunctions := none },
        [Effect.notifyFileState relativePath "unchanged" []])
  | none =>
    if isCached then
      ({ ind with changedFunctions := none },
        [Effect.showLoading "Detecting changes...", Effect.fallbackAnalyze,
          Effect.notifyFileState relativePath "unchanged" []])
    else (ind, [])

/-- Firing of the armed active-to-changed timer: when it was not
cancelled by a further edit, it clears the editing indicator, records
the changed functions and broadcasts the changed state. -/
def fireActiveToChanged (relativePath : String) (ind : FileIndicatorState) :
    FileIndicatorState × List Effect :=
  match ind.activelyEditing with
  | some a =>
    ({ activelyEditing := none, changedFunctions := some a.functions },
      [Effect.notifyFileState relativePath "changed" a.functions])
  | none => (ind, [])

/-- The per-file scheduler state: the pending debounce delay and the
live-indicator state. -/
structure SchedulerFileState where
  pending : Option Nat
  indicators : FileIndicatorState
deriving DecidableEq, Repr

/-- The synchronous front of scheduleFileAnalysis: compiled output
paths are ignored outright; otherwise the pending timer of the file is
replaced by a new one whose delay is 100 for file creation and the
configured debounce for everything else.  The second component is the
delay of the newly scheduled timer, none when nothing was scheduled. -/
def scheduleFileAnalysis (filePath source : String) (config : FileWatchingConfig)
    (st : SchedulerFileState) : SchedulerFileState × Option Nat :=
  if strContains filePath "/out/" || strContains filePath "\\out\\" then (st, none)
  else
    let debounceMs := if source = "create" then 100 else config.debounceMs
    ({ st with pending := some debounceMs }, some debounceMs)

/-- A persisted cache entry: the key it is stored under, the graph and
a timestamp. -/
structure CacheEntry where
  hash : String
  graph : WorkflowGraph
  timestamp : Nat
deriving DecidableEq, Repr

/-- The persisted global cache, an association of keys to entries. -/
def GlobalCache := List (String × CacheEntry)

/-- Key lookup in the global cache. -/
def lookupEntry (gs : GlobalCache) (k : String) : Option CacheEntry :=
  (List.find? (fun e => e.1 == k) gs).map (·.2)

/-- Key overwrite in the global cache. -/
def setEntry (gs : GlobalCache) (k : String) (e : CacheEntry) : GlobalCache :=
  (k, e) :: List.filter (fun p => p.1 != k) gs

/-- Join strings with the bar separator used by the cache-key builder. -/
def joinBar : List String → String
  | [] => ""
  | [s] => s
  | s :: rest => s ++ "|" ++ joinBar rest

/-- The cache key of a file set: pairs sorted by path, each rendered as
path, colon and content hash, joined with bars and hashed.  The hash
function itself is a collaborator and is passed in. -/
def createWorkspaceCacheKey (hashContent : String → String)
    (filePaths contents : List String) : String :=
  let sorted := (filePaths.zip contents).mergeSort (fun a b => lexLe a.1.data b.1.data)
  hashContent (joinBar (sorted.map (fun f => f.1 ++ ":" ++ hashContent f.2)))

/-- Read the cached graph of a file set. -/
def getMultiple (hashContent : String → String) (gs : GlobalCache)
    (filePaths contents : List String) : Option WorkflowGraph :=
  (lookupEntry gs (createWorkspaceCacheKey hashContent filePaths contents)).map (·.graph)

/-- Store the graph of a file set under its content-derived key. -/
def setMultiple (hashContent : String → String) (gs : GlobalCache)
    (filePaths contents : List String) (graph : WorkflowGraph) (timestamp : Nat) : GlobalCache :=
  let cacheKey := createWorkspaceCacheKey hashContent filePaths contents
  setEntry gs cacheKey { hash := cacheKey, graph := graph, timestamp := timestamp }

/-- A concrete repo state with one indexed file a.py exporting
summarize, used to instantiate theorems. -/
def exampleRepoState : AnalysisState :=
  { cachedCallGraphs := []
    repoFiles := [{ path := "a.py", functions := [{ name := "summarize", calls := [], line := 1 }] }]
    crossFileCalls := [] }

/-- A concrete extractor output for b.py: one function main calling
a.summarize(x) and one import of module a. -/
def exampleExtract : String → String → FileStructure :=
  fun _ _ =>
    { functions := [{ name := "main", calls := ["a.summarize(x)"], line := 3 }]
      imports := [{ source := "a", symbols := [] }] }

def exampleConfig : FileWatchingConfig := { debounceMs := 2000, activeToChangedMs := 4000 }

def exampleInd : FileIndicatorState :=
  { activelyEditing := some { delayMs := 4000, functions := ["f"] }, changedFunctions := none }

def wOldCG : CallGraph := { functions := [("f", { name := "f", startLine := 1, endLine := 2, calls := ["g"] })] }

def wNewCG : CallGraph := { functions := [("f", { name := "f", startLine := 1, endLine := 2, calls := ["h"] })] }

def wGraph : WorkflowGraph := { nodes := [{ id := "a.py::f" }], edges := [] }

def wApplied : LocalUpdateResult :=
  { graph := some wGraph, nodesAdded := [], nodesRemoved := [], nodesUpdated := ["a.py::f"]
    edgesAdded := 1, edgesRemoved := 1, needsMetadata := [], changedFunctions := [] }

def wEnv : LocalUpdateEnv :=
  { readFile := some "code"
    extractCallGraph := fun _ _ => wNewCG
    applyLocalUpdate := fun _ _ _ _ => wApplied
    detectWorkflow := fun _ _ => false
    createGraphFromCallGraph := fun _ _ => { nodes := [], edges := [] }
    extractFileStructure := fun _ _ => { functions := [], imports := [] }
    setAnalysisResult := fun cc _ _ _ => cc }

def wCache : CacheState := { getMergedAll := some wGraph, getMergedFile := fun _ => some wGraph }

def wState : AnalysisState := { cachedCallGraphs := [("a.py", wOldCG)], repoFiles := [], crossFileCalls := [] }

def wR : LocalUpdateResult := { wApplied with changedFunctions := ["f"] }

def wEnvNoop : LocalUpdateEnv := { wEnv with extractCallGraph := fun _ _ => wOldCG }

theorem resolveCall_eq_some_iff (im : String → Option String) (ex : String → Option (List String))
    (rp : String) (fn : FileFunction) (call : String) (c : CrossFileCall) :
    resolveCall im ex rp fn call = some c ↔
      ∃ mo fu tf funcs, parseCall call = some (mo, fu) ∧ im mo = some tf ∧ tf ≠ rp ∧
        ex tf = some funcs ∧ (fu ∈ funcs ∨ funcs = []) ∧
        c = { caller := ⟨rp, fn.name, fn.line⟩, callee := ⟨tf, fu, mo⟩ } := by
  unfold resolveCall
  rcases hp : parseCall call with _ | ⟨mo, fu⟩
  · simp [hp]
  · rcases him : im mo with _ | tf
    · simp [hp, him]
    · by_cases htf : tf = rp
      · subst htf
        simp [hp, him]
      · rcases hex : ex tf with _ | funcs
        · simp [hp, him, hex, htf]
        · by_cases hc : fu ∈ funcs ∨ funcs = []
          · have hb : (funcs.contains fu || funcs.isEmpty) = true := by
              rcases hc with hc | hc <;> simp [hc]
            simp [him, hex, hb, htf]
            constructor
            · rintro ⟨hmem, hceq⟩
              exact ⟨mo, fu, ⟨rfl, rfl⟩, tf, him, htf, funcs, hex, hmem, hceq.symm⟩
            · rintro ⟨mo1, fu1, ⟨rfl, rfl⟩, x, hx, hxr, x1, hx1, hmem, rfl⟩
              rw [him] at hx
              injection hx with hx
              subst hx
              rw [hex] at hx1
              injection hx1 with hx1
              subst hx1
              exact ⟨hmem, rfl⟩
          · have hb : (funcs.contains fu || funcs.isEmpty) = false := by
              push_neg at hc
              simp [hc.1, hc.2]
            simp [hp, him, hex, htf, hb, hc]

theorem mem_newCallsOf (fs : FileStructure) (im : String → Option String)
    (ex : String → Option (List String)) (rp : String) (c : CrossFileCall) :
    c ∈ newCallsOf fs im ex rp ↔
      ∃ fn ∈ fs.functions, ∃ call ∈ fn.calls, resolveCall im ex rp fn call = some c := by
  simp [newCallsOf, List.mem_flatMap, List.mem_filterMap]

theorem newCallsOf_caller (fs : FileStructure) (im : String → Option String)
    (ex : String → Option (List String)) (rp : String) :
    ∀ c ∈ newCallsOf fs im ex rp, c.caller.file = rp := by
  intro c hc
  rcases (mem_newCallsOf fs im ex rp c).mp hc with ⟨fn, _, call, _, hres⟩
  rcases (resolveCall_eq_some_iff im ex rp fn call c).mp hres with
    ⟨mo, fu, tf, funcs, _, _, _, _, _, hceq⟩
  subst hceq
  rfl

theorem updatedRepoFilesOf_filter (R : List RepoFile) (fs : FileStructure) (rp : String) :
    (updatedRepoFilesOf R fs rp).filter (fun f => f.path ≠ rp) =
      R.filter (fun f => f.path ≠ rp) := by
  unfold updatedRepoFilesOf
  rw [List.filter_append, List.filter_filter]
  simp

theorem updatedRepoFilesOf_ne_nil (R : List RepoFile) (fs : FileStructure) (rp : String) :
    (updatedRepoFilesOf R fs rp).isEmpty = false := by
  simp [updatedRepoFilesOf]

theorem updateCrossFileState_eq (extract : String → String → FileStructure)
    (content rp : String) (st : AnalysisState) (h : st.repoFiles.isEmpty = false) :
    updateCrossFileState extract content rp st =
      { st with
        repoFiles := updatedRepoFilesOf st.repoFiles (extract content rp) rp
        crossFileCalls :=
          st.crossFileCalls.filter (fun c => c.caller.file ≠ rp) ++
            newCallsOf (extract content rp)
              (importMapOf (extract content rp).imports rp
                ((updatedRepoFilesOf st.repoFiles (extract content rp) rp).map (·.path)))
              (exportedFunctionsOf (updatedRepoFilesOf st.repoFiles (extract content rp) rp))
              rp } := by
  unfold updateCrossFileState
  rw [h]
  rfl

theorem updatedRepoFilesOf_idem (R : List RepoFile) (fs : FileStructure) (rp : String) :
    updatedRepoFilesOf (updatedRepoFilesOf R fs rp) fs rp = updatedRepoFilesOf R fs rp := by
  simp only [updatedRepoFilesOf]
  rw [List.filter_append, List.filter_filter]
  simp

theorem newCallsOf_filter_nil (fs : FileStructure) (im : String → Option String)
    (ex : String → Option (List String)) (rp : String) :
    (newCallsOf fs im ex rp).filter (fun c => c.caller.file ≠ rp) = [] := by
  rw [List.filter_eq_nil_iff]
  intro a ha
  have := newCallsOf_caller fs im ex rp a ha
  simp [this]

/-- C7: updateCrossFileState for file F modifies only the contributions
of F to the shared state: the cross-file calls whose caller is another
file and the RepoFileIndex entries of other paths are preserved exactly. -/
theorem updateCrossFileState_frame (extract : String → String → FileStructure)
    (content rp : String) (st : AnalysisState) :
    (updateCrossFileState extract content rp st).repoFiles.filter (fun f => f.path ≠ rp) =
        st.repoFiles.filter (fun f => f.path ≠ rp) ∧
      (updateCrossFileState extract content rp st).crossFileCalls.filter
          (fun c => c.caller.file ≠ rp) =
        st.crossFileCalls.filter (fun c => c.caller.file ≠ rp) := by
  cases hE : st.repoFiles.isEmpty with
  | true =>
    have h1 : updateCrossFileState extract content rp st = st := by
      simp [updateCrossFileState, hE]
    rw [h1]
    exact ⟨rfl, rfl⟩
  | false =>
    rw [updateCrossFileState_eq extract content rp st hE]
    refine ⟨updatedRepoFilesOf_filter st.repoFiles (extract content rp) rp, ?_⟩
    show (st.crossFileCalls.filter _ ++ newCallsOf _ _ _ _).filter _ = _
    rw [List.filter_append, List.filter_filter, newCallsOf_filter_nil]
    simp

/-- C4: running the Cross-File Resolver twice with identical content and
relative path leaves the state unchanged after the second call: the
second run replaces the prior contributions of the file with identical
ones. -/
theorem updateCrossFileState_idempotent (extract : String → String → FileStructure)
    (content rp : String) (st : AnalysisState) :
    updateCrossFileState extract content rp (updateCrossFileState extract content rp st) =
      updateCrossFileState extract content rp st := by
  cases hE : st.repoFiles.isEmpty with
  | true =>
    have h1 : updateCrossFileState extract content rp st = st := by
      simp [updateCrossFileState, hE]
    rw [h1]
    exact h1
  | false =>
    have hE1 : (updateCrossFileState extract content rp st).repoFiles.isEmpty = false := by
      rw [updateCrossFileState_eq extract content rp st hE]
      exact updatedRepoFilesOf_ne_nil _ _ _
    rw [updateCrossFileState_eq extract content rp _ hE1,
      updateCrossFileState_eq extract content rp st hE]
    simp only [updatedRepoFilesOf_idem]
    rw [List.filter_append, List.filter_filter, newCallsOf_filter_nil]
    simp

/-- C3: after cross-file resolution of file F, a cross-file call from
caller g of F to function f of target file T exists precisely when some
call string of g parses as a module dot function pattern, the module
resolves through the import map of F to T, T is a different file, and
the RepoFileIndex entry of T exports f or exports no function list. -/
theorem crossFileCall_exists_iff (extract : String → String → FileStructure)
    (content rp : String) (st : AnalysisState)
    (h : st.repoFiles.isEmpty = false) (g T f : String) :
    (∃ c ∈ (updateCrossFileState extract content rp st).crossFileCalls,
        c.caller.file = rp ∧ c.caller.function = g ∧ c.callee.file = T ∧ c.callee.function = f)
      ↔
    (∃ fn ∈ (extract content rp).functions, fn.name = g ∧ ∃ call ∈ fn.calls, ∃ mo,
        parseCall call = some (mo, f) ∧
        importMapOf (extract content rp).imports rp
          ((updatedRepoFilesOf st.repoFiles (extract content rp) rp).map (·.path)) mo = some T ∧
        T ≠ rp ∧
        ∃ funcs, exportedFunctionsOf (updatedRepoFilesOf st.repoFiles (extract content rp) rp) T
            = some funcs ∧ (f ∈ funcs ∨ funcs = [])) := by
  rw [updateCrossFileState_eq extract content rp st h]
  constructor
  · rintro ⟨c, hcmem, hcf, hcg, hcT, hcfn⟩
    rcases List.mem_append.mp hcmem with hmem | hmem
    · exfalso
      have := List.of_mem_filter hmem
      simp at this
      exact this hcf
    · rcases (mem_newCallsOf _ _ _ _ _).mp hmem with ⟨fn, hfn, call, hcall, hres⟩
      rcases (resolveCall_eq_some_iff _ _ _ _ _ _).mp hres with
        ⟨mo, fu, tf, funcs, hp, him, htf, hex, hcfu, rfl⟩
      simp only at hcg hcT hcfn
      subst hcg
      subst hcT
      subst hcfn
      exact ⟨fn, hfn, rfl, call, hcall, mo, hp, him, htf, funcs, hex, hcfu⟩
  · rintro ⟨fn, hfn, hname, call, hcall, mo, hp, him, hTrp, funcs, hex, hcf⟩
    refine ⟨{ caller := ⟨rp, fn.name, fn.line⟩, callee := ⟨T, f, mo⟩ }, ?_, rfl, hname, rfl, rfl⟩
    apply List.mem_append_right
    exact (mem_newCallsOf _ _ _ _ _).mpr
      ⟨fn, hfn, call, hcall,
        (resolveCall_eq_some_iff _ _ _ _ _ _).mpr ⟨mo, f, T, funcs, hp, him, hTrp, hex, hcf, rfl⟩⟩

/-- C3 witness: in the concrete scenario, b.py imports a.py and calls
a.summarize(x), a.py exports summarize, and the resolved cross-file
call exists. -/
theorem crossFileCall_exists_iff_witness :
    ∃ c ∈ (updateCrossFileState exampleExtract "import a" "b.py" exampleRepoState).crossFileCalls,
      c.caller.file = "b.py" ∧ c.caller.function = "main" ∧ c.callee.file = "a.py" ∧
        c.callee.function = "summarize" := by
  apply (crossFileCall_exists_iff exampleExtract "import a" "b.py" exampleRepoState (by decide)
    "main" "a.py" "summarize").mpr
  refine ⟨{ name := "main", calls := ["a.summarize(x)"], line := 3 }, by decide, rfl,
    "a.summarize(x)", by decide, "a", by decide, by decide, by decide, ["summarize"],
    by decide, Or.inl (by decide)⟩

theorem lexLe_cons_iff (a b : Char) (as bs : List Char) :
    lexLe (a :: as) (b :: bs) = true ↔ a < b ∨ (a = b ∧ lexLe as bs = true) := by
  simp [lexLe]

theorem lexLe_total : ∀ as bs : List Char, (lexLe as bs || lexLe bs as) = true := by
  intro as
  induction as with
  | nil => intro bs; simp [lexLe]
  | cons a as ih =>
    intro bs
    cases bs with
    | nil => simp [lexLe]
    | cons b bs =>
      rcases lt_trichotomy a b with h | h | h
      · simp [lexLe_cons_iff, h]
      · subst h
        have := ih bs
        simp [Bool.or_eq_true, lexLe_cons_iff, lt_irrefl] at this ⊢
        exact this
      · simp [lexLe_cons_iff, h]

theorem lexLe_trans : ∀ as bs cs : List Char,
    lexLe as bs = true → lexLe bs cs = true → lexLe as cs = true := by
  intro as
  induction as with
  | nil => intro bs cs h1 h2; simp [lexLe]
  | cons a as ih =>
    intro bs cs h1 h2
    cases bs with
    | nil => simp [lexLe] at h1
    | cons b bs =>
      cases cs with
      | nil => simp [lexLe] at h2
      | cons c cs =>
        rw [lexLe_cons_iff] at h1 h2 ⊢
        rcases h1 with h1 | ⟨rfl, h1⟩
        · rcases h2 with h2 | ⟨rfl, h2⟩
          · exact Or.inl (lt_trans h1 h2)
          · exact Or.inl h1
        · rcases h2 with h2 | ⟨rfl, h2⟩
          · exact Or.inl h2
          · exact Or.inr ⟨rfl, ih bs cs h1 h2⟩

theorem lexLe_antisymm : ∀ as bs : List Char,
    lexLe as bs = true → lexLe bs as = true → as = bs := by
  intro as
  induction as with
  | nil =>
    intro bs h1 h2
    cases bs with
    | nil => rfl
    | cons b bs => simp [lexLe] at h2
  | cons a as ih =>
    intro bs h1 h2
    cases bs with
    | nil => simp [lexLe] at h1
    | cons b bs =>
      rw [lexLe_cons_iff] at h1 h2
      rcases h1 with h1 | ⟨rfl, h1⟩
      · rcases h2 with h2 | ⟨h2e, h2⟩
        · exact absurd h2 (lt_asymm h1)
        · exact absurd (h2e ▸ h1) (lt_irrefl _)
      · rcases h2 with h2 | ⟨h2e, h2⟩
        · exact absurd h2 (lt_irrefl _)
        · rw [ih bs h1 h2]

theorem sortedKeyEq : ∀ l₁ l₂ : List (String × String), l₁.Perm l₂ →
    l₁.Pairwise (fun a b => lexLe a.1.data b.1.data = true) →
    l₂.Pairwise (fun a b => lexLe a.1.data b.1.data = true) →
    (l₁.map Prod.fst).Nodup → l₁ = l₂ := by
  intro l₁
  induction l₁ with
  | nil =>
    intro l₂ hp _ _ _
    exact hp.nil_eq
  | cons a t ih =>
    intro l₂ hp hs₁ hs₂ hnd
    cases l₂ with
    | nil => exact absurd hp.eq_nil (by simp)
    | cons b t₂ =>
      have hab : a = b := by
        have hbmem : b ∈ a :: t := hp.mem_iff.mpr (List.mem_cons_self b t₂)
        rcases List.mem_cons.mp hbmem with h | hbt
        · exact h.symm
        · have h₁ : lexLe a.1.data b.1.data = true := (List.pairwise_cons.mp hs₁).1 b hbt
          have hamem : a ∈ b :: t₂ := hp.mem_iff.mp (List.mem_cons_self a t)
          rcases List.mem_cons.mp hamem with h | hat₂
          · exact h
          · have h₂ : lexLe b.1.data a.1.data = true := (List.pairwise_cons.mp hs₂).1 a hat₂
            have hkey : a.1 = b.1 := congrArg String.mk (lexLe_antisymm _ _ h₁ h₂)
            exfalso
            have hmem2 : a.1 ∈ t.map Prod.fst := by
              rw [hkey]
              exact List.mem_map_of_mem Prod.fst hbt
            exact (List.nodup_cons.mp (by simpa using hnd)).1 hmem2
      subst hab
      have ht : t = t₂ :=
        ih t₂ hp.cons_inv (List.pairwise_cons.mp hs₁).2 (List.pairwise_cons.mp hs₂).2
          (by simpa using (List.nodup_cons.mp (by simpa using hnd)).2)
      rw [ht]

/-- C9: the cache key depends only on the set of path-content pairs:
permuting the file set leaves the key unchanged, and a lookup with the
permuted set after a store returns the stored graph. -/
theorem cacheKey_set_invariant (hashContent : String → String) (gs : GlobalCache)
    (p₁ c₁ p₂ c₂ : List String) (g : WorkflowGraph) (ts : Nat)
    (hperm : (p₁.zip c₁).Perm (p₂.zip c₂))
    (hnd : ((p₁.zip c₁).map Prod.fst).Nodup) :
    createWorkspaceCacheKey hashContent p₁ c₁ = createWorkspaceCacheKey hashContent p₂ c₂ ∧
      getMultiple hashContent (setMultiple hashContent gs p₁ c₁ g ts) p₂ c₂ = some g := by
  have hkey : createWorkspaceCacheKey hashContent p₁ c₁ =
      createWorkspaceCacheKey hashContent p₂ c₂ := by
    unfold createWorkspaceCacheKey
    have hsorted :
        (p₁.zip c₁).mergeSort (fun a b => lexLe a.1.data b.1.data) =
          (p₂.zip c₂).mergeSort (fun a b => lexLe a.1.data b.1.data) := by
      apply sortedKeyEq
      · exact ((List.mergeSort_perm _ _).trans hperm).trans (List.mergeSort_perm _ _).symm
      · exact List.sorted_mergeSort
          (fun a b c hab hbc => lexLe_trans a.1.data b.1.data c.1.data hab hbc)
          (fun a b => lexLe_total a.1.data b.1.data) _
      · exact List.sorted_mergeSort
          (fun a b c hab hbc => lexLe_trans a.1.data b.1.data c.1.data hab hbc)
          (fun a b => lexLe_total a.1.data b.1.data) _
      · exact (((List.mergeSort_perm _ _).map Prod.fst).nodup_iff).mpr hnd
    rw [hsorted]
  refine ⟨hkey, ?_⟩
  unfold getMultiple setMultiple
  rw [← hkey]
  unfold lookupEntry setEntry
  simp

/-- C9 witness: a two-file set stored in one order and read back in the
other order yields the same key and the stored graph, with the identity
function standing in for the hash collaborator. -/
theorem cacheKey_set_invariant_witness :
    createWorkspaceCacheKey (fun s => s) ["b", "a"] ["2", "1"] =
        createWorkspaceCacheKey (fun s => s) ["a", "b"] ["1", "2"] ∧
      getMultiple (fun s => s)
          (setMultiple (fun s => s) ([] : GlobalCache) ["b", "a"] ["2", "1"]
            { nodes := [{ id := "n" }], edges := [] } 0)
          ["a", "b"] ["1", "2"] = some { nodes := [{ id := "n" }], edges := [] } :=
  cacheKey_set_invariant (fun s => s) ([] : GlobalCache) ["b", "a"] ["2", "1"]
    ["a", "b"] ["1", "2"] { nodes := [{ id := "n" }], edges := [] } 0 (by decide) (by decide)

/-- C10: scheduleFileAnalysis ignores compiled output files: a path
containing the out directory separator returns immediately, leaving the
per-file state unchanged and scheduling no timer. -/
theorem scheduleFileAnalysis_ignores_out (filePath source : String)
    (config : FileWatchingConfig) (st : SchedulerFileState)
    (h : strContains filePath "/out/" = true ∨ strContains filePath "\\out\\" = true) :
    scheduleFileAnalysis filePath source config st = (st, none) := by
  rcases h with h | h <;> simp [scheduleFileAnalysis, h]

/-- C10 witness: a concrete compiled-output path is ignored. -/
theorem scheduleFileAnalysis_ignores_out_witness :
    scheduleFileAnalysis "proj/out/main.js" "change"
        { debounceMs := 2000, activeToChangedMs := 4000 }
        { pending := some 7, indicators := { activelyEditing := none, changedFunctions := none } } =
      ({ pending := some 7, indicators := { activelyEditing := none, changedFunctions := none } },
        none) :=
  scheduleFileAnalysis_ignores_out "proj/out/main.js" "change"
    { debounceMs := 2000, activeToChangedMs := 4000 }
    { pending := some 7, indicators := { activelyEditing := none, changedFunctions := none } }
    (Or.inl (by decide))

/-- C8: for a path that is not ignored, the debounce delay applied to a
creation event is the fixed 100 and is shorter than the configured
delay applied to any other event source, whenever the configured
debounce exceeds 100, as the documented configuration of 2000 does. -/
theorem debounce_create_shorter (filePath source : String) (config : FileWatchingConfig)
    (st : SchedulerFileState)
    (h1 : strContains filePath "/out/" = false) (h2 : strContains filePath "\\out\\" = false)
    (hsrc : source ≠ "create") (hcfg : 100 < config.debounceMs) :
    (scheduleFileAnalysis filePath "create" config st).2 = some 100 ∧
      (scheduleFileAnalysis filePath source config st).2 = some config.debounceMs ∧
      100 < config.debounceMs := by
  refine ⟨?_, ?_, hcfg⟩ <;> simp [scheduleFileAnalysis, h1, h2, hsrc]

/-- C8 witness: with the documented 2000 millisecond debounce, creation
of a source file is scheduled at 100 and modification at 2000. -/
theorem debounce_create_shorter_witness :
    (scheduleFileAnalysis "src/app.ts" "create"
        { debounceMs := 2000, activeToChangedMs := 4000 }
        { pending := none, indicators := { activelyEditing := none, changedFunctions := none } }).2
        = some 100 ∧
      (scheduleFileAnalysis "src/app.ts" "watcher"
          { debounceMs := 2000, activeToChangedMs := 4000 }
          { pending := none,
            indicators := { activelyEditing := none, changedFunctions := none } }).2
        = some 2000 ∧
      100 < 2000 :=
  debounce_create_shorter "src/app.ts" "watcher" { debounceMs := 2000, activeToChangedMs := 4000 }
    { pending := none, indicators := { activelyEditing := none, changedFunctions := none } }
    (by decide) (by decide) (by decide) (by decide)

/-- C6: when the local update returns the null sentinel, the scheduler
falls back to full re-analysis exactly when the file was previously
analyzed; otherwise the event is dropped with no state change and no
effect. -/
theorem scheduler_null_fallback (config : FileWatchingConfig) (isCached ctxAvail : Bool)
    (rp : String) (ind : FileIndicatorState) :
    (Effect.fallbackAnalyze ∈ (onDebounceFire config none isCached ctxAvail rp ind).2 ↔
        isCached = true) ∧
      (isCached = false → onDebounceFire config none isCached ctxAvail rp ind = (ind, [])) := by
  cases isCached <;> simp [onDebounceFire]

/-- C6 witness: the fallback effect is emitted for a cached file and the
event is dropped without effects for an uncached one. -/
theorem scheduler_null_fallback_witness :
    (Effect.fallbackAnalyze ∈
        (onDebounceFire { debounceMs := 2000, activeToChangedMs := 4000 } none true false "a.py"
          { activelyEditing := none, changedFunctions := none }).2 ↔ True) ∧
      onDebounceFire { debounceMs := 2000, activeToChangedMs := 4000 } none false false "a.py"
          { activelyEditing := none, changedFunctions := none } =
        ({ activelyEditing := none, changedFunctions := none }, []) := by
  constructor
  · rw [(scheduler_null_fallback { debounceMs := 2000, activeToChangedMs := 4000 } true false
      "a.py" { activelyEditing := none, changedFunctions := none }).1]
    simp
  · exact (scheduler_null_fallback { debounceMs := 2000, activeToChangedMs := 4000 } false false
      "a.py" { activelyEditing := none, changedFunctions := none }).2 rfl

/-- C2: a patch with zero added and removed nodes and zero added and
removed edges produces exactly one unchanged notification, no graph
re-render request and no changed broadcast, clears both indicators, and
leaves no armed timer that could later broadcast a changed state. -/
theorem scheduler_zero_patch_silent (config : FileWatchingConfig) (isCached ctxAvail : Bool)
    (rp : String) (ind : FileIndicatorState) (r : LocalUpdateResult)
    (h1 : r.nodesAdded = []) (h2 : r.nodesRemoved = [])
    (h3 : r.edgesAdded = 0) (h4 : r.edgesRemoved = 0) :
    (onDebounceFire config (some r) isCached ctxAvail rp ind).2 =
        [Effect.notifyFileState rp "unchanged" []] ∧
      (onDebounceFire config (some r) isCached ctxAvail rp ind).1 =
        { activelyEditing := none, changedFunctions := none } ∧
      (∀ fc nm, Effect.updateGraph fc nm ∉
        (onDebounceFire config (some r) isCached ctxAvail rp ind).2) ∧
      (∀ fns, Effect.notifyFileState rp "changed" fns ∉
        (onDebounceFire config (some r) isCached ctxAvail rp ind).2) ∧
      fireActiveToChanged rp (onDebounceFire config (some r) isCached ctxAvail rp ind).1 =
        ((onDebounceFire config (some r) isCached ctxAvail rp ind).1, []) := by
  have hs : structuralChangeB r = false := by
    simp [structuralChangeB, h1, h2, h3, h4]
  simp [onDebounceFire, hs, fireActiveToChanged]

/-- C2 witness: a concrete all-zero patch yields only the unchanged
notification and cleared indicators. -/
theorem scheduler_zero_patch_silent_witness :
    (onDebounceFire exampleConfig (some (zeroPatch none)) true false "a.py" exampleInd).2 =
        [Effect.notifyFileState "a.py" "unchanged" []] ∧
      (onDebounceFire exampleConfig (some (zeroPatch none)) true false "a.py" exampleInd).1 =
        { activelyEditing := none, changedFunctions := none } := by
  have h := scheduler_zero_patch_silent exampleConfig true false "a.py" exampleInd
    (zeroPatch none) rfl rfl rfl rfl
  exact ⟨h.1, h.2.1⟩

theorem lookup_isSome_iff (g : CallGraph) (n : String) :
    (g.lookup n).isSome ↔ n ∈ g.keys := by
  unfold CallGraph.lookup CallGraph.keys
  simp [List.find?_isSome, List.mem_map]

theorem mem_keys_lookup (g : CallGraph) (n : String) (h : n ∈ g.keys) :
    ∃ fi, g.lookup n = some fi := by
  have := (lookup_isSome_iff g n).mpr h
  exact Option.isSome_iff_exists.mp this

theorem mem_edgePairs (g : CallGraph) (p : String × String) :
    p ∈ g.edgePairs ↔ ∃ fi, g.lookup p.1 = some fi ∧ p.2 ∈ fi.calls := by
  unfold CallGraph.edgePairs
  simp only [List.mem_flatMap, List.mem_dedup]
  constructor
  · rintro ⟨n, hn, hp⟩
    cases hl : g.lookup n with
    | none =>
      rw [hl] at hp
      simp at hp
    | some fi =>
      rw [hl] at hp
      simp only [List.mem_map] at hp
      rcases hp with ⟨cc, hc, rfl⟩
      exact ⟨fi, hl, hc⟩
  · rintro ⟨fi, hl, hc⟩
    refine ⟨p.1, ?_, ?_⟩
    · exact (lookup_isSome_iff g p.1).mp (by rw [hl]; rfl)
    · rw [hl]
      simp only [List.mem_map]
      exact ⟨p.2, hc, rfl⟩

theorem diff_empty_edges (old new : CallGraph)
    (h1 : (diffCallGraphs old new).addedFunctions = [])
    (h2 : (diffCallGraphs old new).removedFunctions = [])
    (h3 : (diffCallGraphs old new).modifiedFunctions = []) :
    (diffCallGraphs old new).addedEdges = [] ∧ (diffCallGraphs old new).removedEdges = [] := by
  simp only [diffCallGraphs] at h1 h2 h3 ⊢
  rw [List.filter_eq_nil_iff] at h1 h2 h3
  have hsub : ∀ n ∈ new.keys, n ∈ old.keys := by
    intro n hn
    simpa using h1 n (List.mem_dedup.mpr hn)
  have hsub2 : ∀ n ∈ old.keys, n ∈ new.keys := by
    intro n hn
    simpa using h2 n (List.mem_dedup.mpr hn)
  have hcalls : ∀ n ∈ new.keys, ∀ a b, old.lookup n = some a → new.lookup n = some b →
      a.calls = b.calls := by
    intro n hn a b ha hb
    have h3x := h3 n (List.mem_dedup.mpr hn)
    rw [ha, hb] at h3x
    simp [infoChanged] at h3x
    exact (h3x (hsub n hn)).1.1
  constructor
  · rw [List.filter_eq_nil_iff]
    intro p hp
    rcases (mem_edgePairs new p).mp hp with ⟨b, hb, hcb⟩
    have hk : p.1 ∈ new.keys := (lookup_isSome_iff new p.1).mp (by rw [hb]; rfl)
    rcases mem_keys_lookup old p.1 (hsub _ hk) with ⟨a, ha⟩
    have hmem : p ∈ old.edgePairs :=
      (mem_edgePairs old p).mpr ⟨a, ha, by rw [hcalls p.1 hk a b ha hb]; exact hcb⟩
    simp [hmem]
  · rw [List.filter_eq_nil_iff]
    intro p hp
    rcases (mem_edgePairs old p).mp hp with ⟨a, ha, hca⟩
    have hk : p.1 ∈ old.keys := (lookup_isSome_iff old p.1).mp (by rw [ha]; rfl)
    have hkn : p.1 ∈ new.keys := hsub2 _ hk
    rcases mem_keys_lookup new p.1 hkn with ⟨b, hb⟩
    have hmem : p ∈ new.edgePairs :=
      (mem_edgePairs new p).mpr ⟨b, hb, by rw [← hcalls p.1 hkn a b ha hb]; exact hca⟩
    simp [hmem]

theorem tryCreateNewLLMGraph_shape (env : LocalUpdateEnv) (c : CacheState) (st1 : AnalysisState)
    (content filePath relativePath : String) (newCallGraph : CallGraph) (r : LocalUpdateResult)
    (hr : (tryCreateNewLLMGraph env c st1 content filePath relativePath newCallGraph).1 = some r) :
    r.changedFunctions ≠ [] := by
  by_cases h : (env.detectWorkflow content filePath && decide (0 < newCallGraph.size)) = true
  · simp only [tryCreateNewLLMGraph, h, if_true, Option.some.injEq] at hr
    subst hr
    simp only [Bool.and_eq_true, decide_eq_true_eq] at h
    have h2 := h.2
    unfold CallGraph.size at h2
    intro hnil
    simp only at hnil
    rw [hnil] at h2
    exact absurd h2 (by simp)
  · rw [Bool.not_eq_true] at h
    simp [tryCreateNewLLMGraph, h] at hr

theorem structuralChangeB_zeroPatch (g : Option WorkflowGraph) :
    structuralChangeB (zeroPatch g) = false := by
  simp [structuralChangeB, zeroPatch]

theorem performLocalUpdate_some_shape (env : LocalUpdateEnv) (c : CacheState) (st : AnalysisState)
    (fp rp : String) (r : LocalUpdateResult)
    (hr : (performLocalUpdate env c st fp rp).1 = some r)
    (hs : structuralChangeB r = true) :
    r.changedFunctions ≠ [] := by
  rcases hread : env.readFile with _ | content
  · simp only [performLocalUpdate, hread] at hr
    cases hr
  · simp only [performLocalUpdate, hread] at hr
    rcases hO : getCachedCallGraph st fp with _ | old <;>
      rcases hF : c.getMergedFile fp with _ | fg <;>
      simp only [hO, hF] at hr
    · exact tryCreateNewLLMGraph_shape _ _ _ _ _ _ _ _ hr
    · by_cases hn : (decide (0 < fg.nodes.length)) = true
      · simp only [hn, if_true, Option.some.injEq] at hr
        subst hr
        rw [structuralChangeB_zeroPatch] at hs
        cases hs
      · rw [Bool.not_eq_true] at hn
        simp only [hn, Bool.false_eq_true, if_false] at hr
        exact tryCreateNewLLMGraph_shape _ _ _ _ _ _ _ _ hr
    · exact tryCreateNewLLMGraph_shape _ _ _ _ _ _ _ _ hr
    · set d := diffCallGraphs old (env.extractCallGraph content fp) with hd
      by_cases hch : (!d.addedFunctions.isEmpty || !d.removedFunctions.isEmpty ||
          !d.modifiedFunctions.isEmpty || !d.addedEdges.isEmpty || !d.removedEdges.isEmpty) = true
      · simp only [hch, if_true, Option.some.injEq] at hr
        subst hr
        simp only
        intro hnil
        rcases List.append_eq_nil.mp hnil with ⟨hadd, hrm⟩
        rcases List.append_eq_nil.mp hadd with ⟨ha, hb⟩
        have hedges := diff_empty_edges old (env.extractCallGraph content fp)
          (hd ▸ ha) (hd ▸ hb) (hd ▸ hrm)
        rw [← hd] at hedges
        rw [ha, hb, hrm, hedges.1, hedges.2] at hch
        simp at hch
      · rw [Bool.not_eq_true] at hch
        simp only [hch, Bool.false_eq_true, if_false, Option.some.injEq] at hr
        subst hr
        rw [structuralChangeB_zeroPatch] at hs
        cases hs

/-- C1: when the local update succeeds with a patch showing structural
change, the scheduler broadcasts the being-edited indicator as the
file-change payload of the graph update, arms the inactivity timer with
the configured window, and that timer, when it fires uncancelled,
transitions to the changed state broadcasting the changed function
list. -/
theorem scheduler_active_then_changed (env : LocalUpdateEnv) (c : CacheState) (st : AnalysisState)
    (fp rp : String) (config : FileWatchingConfig) (isCached ctxAvail : Bool)
    (ind : FileIndicatorState) (r : LocalUpdateResult)
    (hr : (performLocalUpdate env c st fp rp).1 = some r)
    (hs : structuralChangeB r = true) :
    (onDebounceFire config (some r) isCached ctxAvail rp ind).1.activelyEditing =
        some { delayMs := config.activeToChangedMs, functions := r.changedFunctions } ∧
      Effect.updateGraph (some (rp, r.changedFunctions)) r.needsMetadata ∈
        (onDebounceFire config (some r) isCached ctxAvail rp ind).2 ∧
      fireActiveToChanged rp (onDebounceFire config (some r) isCached ctxAvail rp ind).1 =
        ({ activelyEditing := none, changedFunctions := some r.changedFunctions },
          [Effect.notifyFileState rp "changed" r.changedFunctions]) := by
  have hcf : r.changedFunctions ≠ [] := performLocalUpdate_some_shape env c st fp rp r hr hs
  have hcfb : r.changedFunctions.isEmpty = false := List.isEmpty_eq_false.mpr hcf
  simp [onDebounceFire, hs, hcfb, fireActiveToChanged]

/-- C1 witness: a concrete renamed call inside one function yields a
structural patch, arms the timer with the configured window, and the
fired timer broadcasts the changed function. -/
theorem scheduler_active_then_changed_witness :
    (onDebounceFire exampleConfig (some wR) true false "a.py"
          { activelyEditing := none, changedFunctions := none }).1.activelyEditing =
        some { delayMs := exampleConfig.activeToChangedMs, functions := wR.changedFunctions } ∧
      Effect.updateGraph (some ("a.py", wR.changedFunctions)) wR.needsMetadata ∈
        (onDebounceFire exampleConfig (some wR) true false "a.py"
          { activelyEditing := none, changedFunctions := none }).2 ∧
      fireActiveToChanged "a.py"
          (onDebounceFire exampleConfig (some wR) true false "a.py"
            { activelyEditing := none, changedFunctions := none }).1 =
        ({ activelyEditing := none, changedFunctions := some wR.changedFunctions },
          [Effect.notifyFileState "a.py" "changed" wR.changedFunctions]) :=
  scheduler_active_then_changed wEnv wCache wState "a.py" "a.py" exampleConfig true false
    { activelyEditing := none, changedFunctions := none } wR (by decide) (by decide)

theorem tryCreateNewLLMGraph_none_iff (env : LocalUpdateEnv) (c : CacheState)
    (st1 : AnalysisState) (content filePath relativePath : String) (ncg : CallGraph) :
    ((tryCreateNewLLMGraph env c st1 content filePath relativePath ncg).1 = none ↔
      ¬(env.detectWorkflow content filePath = true ∧ 0 < ncg.size)) := by
  by_cases h : (env.detectWorkflow content filePath && decide (0 < ncg.size)) = true
  · have hp : env.detectWorkflow content filePath = true ∧ 0 < ncg.size := by
      simpa using h
    simp [tryCreateNewLLMGraph, h, hp]
  · have hp : ¬(env.detectWorkflow content filePath = true ∧ 0 < ncg.size) := by
      intro hc
      exact h (by simp [hc.1, hc.2])
    rw [Bool.not_eq_true] at h
    simp [tryCreateNewLLMGraph, h, hp]

/-- C5: with a cached call graph, a cached file graph and an all-empty
diff, performLocalUpdate returns the explicit zero-change patch, never
the null sentinel; and in general the null sentinel is returned exactly
when the read fails, modelling an exception, or the file has no prior
cached analysis and is not a recognized LLM file with at least one
function. -/
theorem performLocalUpdate_zero_vs_null (env : LocalUpdateEnv) (c : CacheState)
    (st : AnalysisState) (fp rp content : String) (old : CallGraph) (fg : WorkflowGraph)
    (hread : env.readFile = some content)
    (hold : getCachedCallGraph st fp = some old)
    (hfg : c.getMergedFile fp = some fg)
    (h1 : (diffCallGraphs old (env.extractCallGraph content fp)).addedFunctions = [])
    (h2 : (diffCallGraphs old (env.extractCallGraph content fp)).removedFunctions = [])
    (h3 : (diffCallGraphs old (env.extractCallGraph content fp)).modifiedFunctions = [])
    (h4 : (diffCallGraphs old (env.extractCallGraph content fp)).addedEdges = [])
    (h5 : (diffCallGraphs old (env.extractCallGraph content fp)).removedEdges = []) :
    (performLocalUpdate env c st fp rp).1 = some (zeroPatch c.getMergedAll) ∧
      ∀ (env' : LocalUpdateEnv) (c' : CacheState) (st' : AnalysisState) (fp' rp' : String),
        ((performLocalUpdate env' c' st' fp' rp').1 = none ↔
          env'.readFile = none ∨
            ∃ content', env'.readFile = some content' ∧ ¬hasPriorAnalysis c' st' fp' ∧
              ¬recognizedLLMFile env' content' fp') := by
  constructor
  · simp only [performLocalUpdate, hread, hold, hfg]
    rw [h1, h2, h3, h4, h5]
    simp
  · intro env' c' st' fp' rp'
    rcases hread' : env'.readFile with _ | content'
    · simp [performLocalUpdate, hread']
    · simp only [performLocalUpdate, hread']
      rcases hO : getCachedCallGraph st' fp' with _ | old' <;>
        rcases hF : c'.getMergedFile fp' with _ | fg' <;>
        simp only [hO, hF]
      · rw [tryCreateNewLLMGraph_none_iff]
        simp [hasPriorAnalysis, recognizedLLMFile, hO, hF, hread']
      · by_cases hn : (decide (0 < fg'.nodes.length)) = true
        · simp only [hn, if_true]
          simp only [decide_eq_true_eq] at hn
          simp [hasPriorAnalysis, hO, hF, hread', hn]
        · rw [Bool.not_eq_true] at hn
          simp only [hn, Bool.false_eq_true, if_false]
          rw [tryCreateNewLLMGraph_none_iff]
          have hn' : ¬(0 < fg'.nodes.length) := by
            intro hc
            rw [decide_eq_true hc] at hn
            cases hn
          simp [hasPriorAnalysis, recognizedLLMFile, hO, hF, hread', hn']
      · rw [tryCreateNewLLMGraph_none_iff]
        simp [hasPriorAnalysis, recognizedLLMFile, hO, hF, hread']
      · by_cases hch : (!(diffCallGraphs old' (env'.extractCallGraph content' fp')).addedFunctions.isEmpty ||
            !(diffCallGraphs old' (env'.extractCallGraph content' fp')).removedFunctions.isEmpty ||
            !(diffCallGraphs old' (env'.extractCallGraph content' fp')).modifiedFunctions.isEmpty ||
            !(diffCallGraphs old' (env'.extractCallGraph content' fp')).addedEdges.isEmpty ||
            !(diffCallGraphs old' (env'.extractCallGraph content' fp')).removedEdges.isEmpty) = true
        · simp [hch, hasPriorAnalysis, hO, hF, hread']
        · rw [Bool.not_eq_true] at hch
          simp [hch, hasPriorAnalysis, hO, hF, hread']

/-- C5 witness: with an unchanged concrete call graph the update
returns the explicit zero-change patch rather than the null sentinel. -/
theorem performLocalUpdate_zero_vs_null_witness :
    (performLocalUpdate wEnvNoop wCache wState "a.py" "a.py").1 =
      some (zeroPatch wCache.getMergedAll) :=
  (performLocalUpdate_zero_vs_null wEnvNoop wCache wState "a.py" "a.py" "code" wOldCG wGraph
    rfl (by decide) rfl (by decide) (by decide) (by decide) (by decide) (by decide)).1
